import Mathlib

/-!
Shallow embedding of the Portoco browser scripts (portoco1.py,
portoco1.2.py, portoco1.3.py).

Python strings are modelled as `List Char` (`PyStr`), a faithful view of a
Python `str` as a sequence of code points.  Text files are modelled by their
content (`PyStr`); a file that may be absent is `Option PyStr`.  Python code
that can raise (`KeyError`, `ValueError` from tuple unpacking) is modelled
with `Option`, `none` standing for the raised exception.
-/

namespace Portoco

/-- A Python `str`, as a list of code points. -/
abbrev PyStr := List Char

/-- The characters removed by Python `str.strip()` (ASCII whitespace). -/
def pyWhitespace (c : Char) : Bool :=
  c == ' ' || c == '\t' || c == '\n' || c == '\r' ||
  c == Char.ofNat 0x0B || c == Char.ofNat 0x0C

/-- Python `s.lstrip()`. -/
def lstrip (s : PyStr) : PyStr := s.dropWhile pyWhitespace

/-- Python `s.rstrip()`. -/
def rstrip (s : PyStr) : PyStr := (s.reverse.dropWhile pyWhitespace).reverse

/-- Python `s.strip()`. -/
def strip (s : PyStr) : PyStr := rstrip (lstrip s)

/-- Split a string at every occurrence of `sep` (Python `s.split(sep)`). -/
def splitOnChar (sep : Char) : PyStr → List PyStr
  | [] => [[]]
  | c :: cs =>
    if c = sep then [] :: splitOnChar sep cs
    else
      match splitOnChar sep cs with
      | [] => [[c]]
      | h :: t => (c :: h) :: t

/-- The lines produced by iterating over a Python text file (`for line in f`),
with the trailing newline of each line already removed (every use in the
source immediately calls `.strip()`, which removes it anyway). -/
def fileLines (content : PyStr) : List PyStr :=
  let parts := splitOnChar '\n' content
  if parts.getLast? = some [] then parts.dropLast else parts

/-- Python `s.split(sep, 1)` as used with tuple unpacking `a, b = ...`:
`some (before, after)` on the first occurrence of `sep`, and `none`
(the `ValueError` from unpacking a 1-element list) when `sep` is absent. -/
def splitOnce (sep : Char) : PyStr → Option (PyStr × PyStr)
  | [] => none
  | c :: cs =>
    if c = sep then some ([], cs)
    else (splitOnce sep cs).map (fun p => (c :: p.1, p.2))

/-- The file content produced by a loop writing `f.write(x + "\n")` for each
element of a list. -/
def encodeLines : List PyStr → PyStr
  | [] => []
  | l :: ls => l ++ '\n' :: encodeLines ls

theorem splitOnChar_ne_nil (sep : Char) (s : PyStr) : splitOnChar sep s ≠ [] := by
  cases s with
  | nil => simp [splitOnChar]
  | cons c cs =>
    simp only [splitOnChar]
    split
    · simp
    · split <;> simp

theorem splitOnChar_append_sep (sep : Char) (l s : PyStr) (hl : sep ∉ l) :
    splitOnChar sep (l ++ sep :: s) = l :: splitOnChar sep s := by
  induction l with
  | nil => simp [splitOnChar]
  | cons c cs ih =>
    have hc : ¬ c = sep := fun h => hl (h ▸ List.mem_cons_self c cs)
    have hcs : sep ∉ cs := fun h => hl (List.mem_cons_of_mem _ h)
    simp only [List.cons_append, splitOnChar, if_neg hc, List.append_eq, ih hcs]

theorem splitOnChar_encodeLines (ls : List PyStr) (h : ∀ l ∈ ls, '\n' ∉ l) :
    splitOnChar '\n' (encodeLines ls) = ls ++ [[]] := by
  induction ls with
  | nil => simp [encodeLines, splitOnChar]
  | cons l ls ih =>
    have h1 : '\n' ∉ l := h l (List.mem_cons_self _ _)
    have h2 : ∀ x ∈ ls, '\n' ∉ x := fun x hx => h x (List.mem_cons_of_mem _ hx)
    simp only [encodeLines, splitOnChar_append_sep '\n' l _ h1, ih h2, List.cons_append]

theorem fileLines_encodeLines (ls : List PyStr) (h : ∀ l ∈ ls, '\n' ∉ l) :
    fileLines (encodeLines ls) = ls := by
  simp [fileLines, splitOnChar_encodeLines ls h]

theorem splitOnce_append (sep : Char) (a b : PyStr) (ha : sep ∉ a) :
    splitOnce sep (a ++ sep :: b) = some (a, b) := by
  induction a with
  | nil => simp [splitOnce]
  | cons c cs ih =>
    have hc : ¬ c = sep := fun h => ha (h ▸ List.mem_cons_self c cs)
    have hcs : sep ∉ cs := fun h => ha (List.mem_cons_of_mem _ h)
    simp [splitOnce, hc, ih hcs]

namespace V1

/-- A `bookmarks_list` entry of portoco1.py: the `(url, title)` pair appended
by `add_bookmark` and `load_bookmarks`. -/
abbrev Entry := PyStr × PyStr

/-- The line `f"{title}|{url}"` written (plus newline) for an entry by
`save_bookmarks` in portoco1.py. -/
def encodeBookmark (e : Entry) : PyStr := e.2 ++ '|' :: e.1

/-- `save_bookmarks` of portoco1.py: the content written to bookmarks.txt,
one `f"{title}|{url}\n"` record per entry of `bookmarks_list`. -/
def save_bookmarks (bl : List Entry) : PyStr := encodeLines (bl.map encodeBookmark)

/-- One iteration of the `load_bookmarks` loop of portoco1.py:
`title, url = line.strip().split("|", 1)`, then the entry `(url, title)` is
appended.  `none` is the `ValueError` when the line has no `"|"`. -/
def parseBookmarkLine (line : PyStr) : Option Entry :=
  (splitOnce '|' (strip line)).map (fun p => (p.2, p.1))

/-- The `load_bookmarks` loop of portoco1.py over the lines of the file. -/
def parseBookmarkLines : List PyStr → Option (List Entry)
  | [] => some []
  | l :: rest =>
    match parseBookmarkLine l with
    | none => none
    | some e => (parseBookmarkLines rest).map (fun es => e :: es)

/-- `load_bookmarks` of portoco1.py: if the file does not exist (`none`) the
state `bl` is returned unchanged, otherwise each line is parsed and the
entries are appended to `bl`. -/
def load_bookmarks (file : Option PyStr) (bl : List Entry) : Option (List Entry) :=
  match file with
  | none => some bl
  | some content => (parseBookmarkLines (fileLines content)).map (fun es => bl ++ es)

/-- The `self.history` dict of portoco1.py (`tab -> list of urls`), as an
insertion-ordered association list; tabs (QWebEngineView objects) are
identified by `Nat`. -/
abbrev Hist := List (Nat × List PyStr)

/-- Python `self.history[t]` as a total lookup (`none` = key absent). -/
def lookupTab (t : Nat) : Hist → Option (List PyStr)
  | [] => none
  | (k, us) :: rest => if k = t then some us else lookupTab t rest

/-- Python `self.history[t] = us`: overwrite the entry of `t` when present,
otherwise append it (dict insertion order). -/
def setTab (t : Nat) (us : List PyStr) : Hist → Hist
  | [] => [(t, us)]
  | (k, l) :: rest => if k = t then (t, us) :: rest else (k, l) :: setTab t us rest

/-- Python `self.history[t].append(u)`; `none` is the `KeyError` when `t` is
absent. -/
def appendAt (t : Nat) (u : PyStr) : Hist → Option Hist
  | [] => none
  | (k, us) :: rest =>
    if k = t then some ((k, us ++ [u]) :: rest)
    else (appendAt t u rest).map (fun h => (k, us) :: h)

/-- Python `del self.history[t]` guarded by `if t in self.history`: remove
the entry of `t` when present. -/
def delTab (t : Nat) : Hist → Hist
  | [] => []
  | (k, us) :: rest => if k = t then rest else (k, us) :: delTab t rest

/-- The urls written by the `save_history` loop of portoco1.py: all tabs'
lists concatenated in dict order, with no tab separators. -/
def allUrls : Hist → List PyStr
  | [] => []
  | (_, us) :: rest => us ++ allUrls rest

/-- `save_history` of portoco1.py: the content written to history.txt, one
url per line, looping over every tab's list. -/
def save_history (h : Hist) : PyStr := encodeLines (allUrls h)

/-- The `load_history` loop of portoco1.py: each stripped line is appended to
the current tab's list when a current tab exists (`if self.current_tab():`),
and skipped otherwise. -/
def loadHistoryLines (cur : Option Nat) : List PyStr → Hist → Option Hist
  | [], h => some h
  | l :: rest, h =>
    match cur with
    | none => loadHistoryLines cur rest h
    | some t =>
      match appendAt t (strip l) h with
      | none => none
      | some h2 => loadHistoryLines cur rest h2

/-- `load_history` (the zero-argument startup override) of portoco1.py: if
the file does not exist the state is unchanged, otherwise every line is
appended to the current tab's list when a current tab exists. -/
def load_history (file : Option PyStr) (h : Hist) (cur : Option Nat) : Option Hist :=
  match file with
  | none => some h
  | some content => loadHistoryLines cur (fileLines content) h

/-- The state mutation of `add_bookmark` in portoco1.py: append `(url, title)`
to `bookmarks_list` unless the url is already bookmarked. -/
def add_bookmark (bl : List Entry) (url title : PyStr) : List Entry :=
  if url ∈ bl.map Prod.fst then bl else bl ++ [(url, title)]

/-- The state mutation of `add_tab` in portoco1.py: the fresh view `v` is
appended to the tab container and `self.history[v] = [url]`. -/
def add_tab (tabs : List Nat) (h : Hist) (v : Nat) (url : PyStr) :
    List Nat × Hist :=
  (tabs ++ [v], setTab v [url] h)

/-- `close_tab` of portoco1.py: only when more than one tab is open, the
widget at `index` is looked up (`none` for an invalid index), its history
entry is deleted when present, and the tab is removed. -/
def close_tab (tabs : List Nat) (h : Hist) (index : Nat) : List Nat × Hist :=
  if 1 < tabs.length then
    (tabs.eraseIdx index,
      match tabs[index]? with
      | some t => delTab t h
      | none => h)
  else (tabs, h)

/-- Python `url_text.startswith(("http://", "https://"))`. -/
def httpPrefixed (s : PyStr) : Bool :=
  "http://".toList.isPrefixOf s || "https://".toList.isPrefixOf s

/-- The scheme normalisation of `load_url` in portoco1.py. -/
def normalizeUrl (t : PyStr) : PyStr :=
  if httpPrefixed t then t else "http://".toList ++ t

/-- The history update of `load_url`: append the url to the current tab's
list unless already present (`none` is the `KeyError` of an untracked tab). -/
def navUpdate (t : Nat) (url : PyStr) (h : Hist) : Option Hist :=
  match lookupTab t h with
  | none => none
  | some us => some (setTab t (if url ∈ us then us else us ++ [url]) h)

/-- `load_url` of portoco1.py on state `(h, cur)` with URL-bar text `input`:
returns the new history and the url handed to `setUrl` (`none` when nothing
is loaded).  A blank input returns immediately; with no current tab nothing
is loaded. -/
def load_url (input : PyStr) (cur : Option Nat) (h : Hist) :
    Option (Hist × Option PyStr) :=
  let text := strip input
  if text = [] then some (h, none)
  else
    let url := normalizeUrl text
    match cur with
    | none => some (h, none)
    | some t => (navUpdate t url h).map (fun h2 => (h2, some url))

end V1

namespace V12

/-- A bookmark entry of portoco1.2.py: `(url, title)`, as stored in the
per-folder lists of `self.bookmarks`. -/
abbrev Entry := PyStr × PyStr

/-- The `self.bookmarks` dict of portoco1.2.py (`folder -> list of
(url, title)`), as an insertion-ordered association list. -/
abbrev Bookmarks := List (PyStr × List Entry)

/-- Python `self.bookmarks[f]` as a total lookup (`none` = folder absent). -/
def lookupFolder (f : PyStr) : Bookmarks → Option (List Entry)
  | [] => none
  | (k, es) :: rest => if k = f then some es else lookupFolder f rest

/-- Python `if f not in self.bookmarks: self.bookmarks[f] = []`. -/
def ensureFolder (f : PyStr) (bm : Bookmarks) : Bookmarks :=
  if (lookupFolder f bm).isSome then bm else bm ++ [(f, [])]

/-- Python `self.bookmarks[f].append(e)` on a present folder (appends to the
first, and in a dict only, entry of key `f`; unchanged when `f` is absent). -/
def appendToFolder (f : PyStr) (e : Entry) : Bookmarks → Bookmarks
  | [] => []
  | (k, es) :: rest =>
    if k = f then (k, es ++ [e]) :: rest else (k, es) :: appendToFolder f e rest

/-- The folder actually used by `add_bookmark` of portoco1.2.py for a dialog
result `(ok, folderInput)`: `"Bookmarks"` when the dialog was cancelled or
the stripped input is empty, the stripped input otherwise. -/
def effFolder (ok : Bool) (folderInput : PyStr) : PyStr :=
  if !ok || strip folderInput = [] then "Bookmarks".toList else strip folderInput

/-- The state mutation of `add_bookmark` in portoco1.2.py for current page
`(url, title)` and folder-dialog result `(ok, folderInput)`: the folder entry
is created when absent, then `(url, title)` is appended unless the url is
already in that folder's list. -/
def add_bookmark (bm : Bookmarks) (url title : PyStr) (ok : Bool)
    (folderInput : PyStr) : Bookmarks :=
  let folder := effFolder ok folderInput
  let bm2 := ensureFolder folder bm
  if url ∈ ((lookupFolder folder bm2).getD []).map Prod.fst then bm2
  else appendToFolder folder (url, title) bm2

/-- One iteration of the `load_bookmarks` loop of portoco1.2.py:
`parts = line.strip().split("|", 2)`; `none` when `len(parts) != 3`
(the line is skipped via `continue`). -/
def parseLine12 (line : PyStr) : Option (PyStr × PyStr × PyStr) :=
  match splitOnce '|' (strip line) with
  | none => none
  | some (folder, rest) =>
    match splitOnce '|' rest with
    | none => none
    | some (title, url) => some (folder, title, url)

/-- The `load_bookmarks` loop of portoco1.2.py over the lines of the file:
malformed lines are skipped, each well-formed `folder|title|url` line appends
`(url, title)` to its folder (created when absent). -/
def loadLines12 : List PyStr → Bookmarks → Bookmarks
  | [], bm => bm
  | l :: rest, bm =>
    match parseLine12 l with
    | none => loadLines12 rest bm
    | some (folder, title, url) =>
      loadLines12 rest (appendToFolder folder (url, title) (ensureFolder folder bm))

/-- `load_bookmarks` of portoco1.2.py: if the file does not exist (`none`)
the bookmark state is unchanged (only the menu is rebuilt). -/
def load_bookmarks (file : Option PyStr) (bm : Bookmarks) : Bookmarks :=
  match file with
  | none => bm
  | some content => loadLines12 (fileLines content) bm

end V12

namespace V13

/-- `is_system_dark_mode` of portoco1.3.py on the window-background
lightness (`QColor.lightness()`, 0..255). -/
def is_system_dark_mode (lightness : Nat) : Bool := lightness < 128

/-- The two stylesheets `apply_styles` of portoco1.3.py can install (their
CSS text plays no role in the claims and is abstracted to a marker). -/
inductive Styles where
  | dark : Styles
  | light : Styles
  deriving DecidableEq

/-- `apply_styles` of portoco1.3.py: installs the dark stylesheet when
`self.is_dark_mode` holds, the light one otherwise. -/
def apply_styles (isDark : Bool) : Styles :=
  if isDark then Styles.dark else Styles.light

/-- The stylesheet installed at startup: `apply_styles` applied to
`self.is_dark_mode = self.is_system_dark_mode()`. -/
def appliedStyles (lightness : Nat) : Styles :=
  apply_styles (is_system_dark_mode lightness)

/-- `close_tab` of portoco1.3.py: remove the tab at `index` only when more
than one tab is open. -/
def close_tab (tabs : List Nat) (index : Nat) : List Nat :=
  if 1 < tabs.length then tabs.eraseIdx index else tabs

end V13

/-- `os.path.join(os.getcwd(), "portoco_data")`, the data folder of every
iteration (POSIX separator). -/
def data_path (cwd : PyStr) : PyStr := cwd ++ '/' :: "portoco_data".toList

/-- `os.path.join(self.data_path, "bookmarks.txt")`. -/
def bookmarksFile (cwd : PyStr) : PyStr := data_path cwd ++ '/' :: "bookmarks.txt".toList

/-- `os.path.join(self.data_path, "history.txt")`. -/
def historyFile (cwd : PyStr) : PyStr := data_path cwd ++ '/' :: "history.txt".toList

/-- The file writes performed by one call of `save_bookmarks` in portoco1.py:
a single `open(path, "w")` of bookmarks.txt with the serialized list. -/
def save_bookmarks_writes (cwd : PyStr) (bl : List V1.Entry) : List (PyStr × PyStr) :=
  [(bookmarksFile cwd, V1.save_bookmarks bl)]

/-- The file writes performed by one call of `save_history` in portoco1.py:
a single `open(path, "w")` of history.txt with the serialized urls. -/
def save_history_writes (cwd : PyStr) (h : V1.Hist) : List (PyStr × PyStr) :=
  [(historyFile cwd, V1.save_history h)]

theorem parseBookmarkLine_encode (e : V1.Entry) (h1 : '|' ∉ e.2)
    (h2 : strip (V1.encodeBookmark e) = V1.encodeBookmark e) :
    V1.parseBookmarkLine (V1.encodeBookmark e) = some e := by
  have h2' : strip (e.2 ++ '|' :: e.1) = e.2 ++ '|' :: e.1 := h2
  simp [V1.parseBookmarkLine, V1.encodeBookmark, h2',
    splitOnce_append '|' e.2 e.1 h1]

theorem parseBookmarkLines_map (bl : List V1.Entry)
    (h : ∀ e ∈ bl, V1.parseBookmarkLine (V1.encodeBookmark e) = some e) :
    V1.parseBookmarkLines (bl.map V1.encodeBookmark) = some bl := by
  induction bl with
  | nil => rfl
  | cons e es ih =>
    simp [V1.parseBookmarkLines, h e (List.mem_cons_self _ _),
      ih (fun x hx => h x (List.mem_cons_of_mem _ hx))]

theorem encodeBookmark_no_newline (e : V1.Entry) (hb : '\n' ∉ e.2)
    (hc : '\n' ∉ e.1) : '\n' ∉ V1.encodeBookmark e := by
  intro hmem
  rcases List.mem_append.mp hmem with h1 | h1
  · exact hb h1
  · rcases List.mem_cons.mp h1 with h2 | h2
    · exact absurd h2 (by decide)
    · exact hc h2

/-- Claim C1 (counterexample): the bookmark round-trip of portoco1.py is not
exact for every entry list.  The single entry with url `"u"` and title
`"a|b"` is saved as the line `a|b|u` and loaded back as url `"b|u"`, title
`"a"`: `load_bookmarks` after `save_bookmarks` on the empty state does not
restore the original entries. -/
theorem bookmark_roundtrip_cex :
    V1.load_bookmarks (some (V1.save_bookmarks [("u".toList, "a|b".toList)])) []
        = some [("b|u".toList, "a".toList)] ∧
    some [(("b|u".toList, "a".toList) : V1.Entry)]
        ≠ some [(("u".toList, "a|b".toList) : V1.Entry)] := by
  constructor
  · decide
  · decide

/-- Claim C1 (amended): saving and then loading bookmarks from an empty
bookmark state restores exactly the same entries in the same order,
provided every entry's title contains no `|` separator, neither field
contains a newline, and stripping the encoded `title|url` line is the
identity (no leading whitespace on the title, no trailing whitespace on the
url). -/
theorem bookmark_roundtrip (bl : List V1.Entry)
    (h : ∀ e ∈ bl, '|' ∉ e.2 ∧ '\n' ∉ e.2 ∧ '\n' ∉ e.1 ∧
      strip (V1.encodeBookmark e) = V1.encodeBookmark e) :
    V1.load_bookmarks (some (V1.save_bookmarks bl)) [] = some bl := by
  have hnl : ∀ l ∈ bl.map V1.encodeBookmark, '\n' ∉ l := by
    intro l hl
    rcases List.mem_map.mp hl with ⟨e, he, rfl⟩
    exact encodeBookmark_no_newline e (h e he).2.1 (h e he).2.2.1
  simp [V1.load_bookmarks, V1.save_bookmarks, fileLines_encodeLines _ hnl,
    parseBookmarkLines_map bl
      (fun e he => parseBookmarkLine_encode e (h e he).1 (h e he).2.2.2)]

/-- Claim C1 (witness): the amended round-trip at a concrete entry list. -/
theorem bookmark_roundtrip_witness :
    V1.load_bookmarks
        (some (V1.save_bookmarks [("http://x".toList, "Example".toList)])) []
      = some [("http://x".toList, "Example".toList)] :=
  bookmark_roundtrip [("http://x".toList, "Example".toList)] (by decide)

theorem loadHistoryLines_none (ls : List PyStr) (h : V1.Hist) :
    V1.loadHistoryLines none ls h = some h := by
  induction ls with
  | nil => rfl
  | cons l rest ih => simp [V1.loadHistoryLines, ih]

theorem loadHistoryLines_single (t : Nat) (ls : List PyStr) (us : List PyStr)
    (h : ∀ l ∈ ls, strip l = l) :
    V1.loadHistoryLines (some t) ls [(t, us)] = some [(t, us ++ ls)] := by
  induction ls generalizing us with
  | nil => simp [V1.loadHistoryLines]
  | cons l rest ih =>
    have h1 : strip l = l := h l (List.mem_cons_self _ _)
    have h2 : ∀ x ∈ rest, strip x = x := fun x hx => h x (List.mem_cons_of_mem _ hx)
    simp [V1.loadHistoryLines, V1.appendAt, h1, ih (us ++ [l]) h2]

/-- Claim C2 (counterexample): the per-tab history round-trip fails.  With
one tab (id 0) whose history is `["a"]`, `save_history` writes history.txt,
but at startup `load_history` runs before any tab exists (no current tab),
so the restored history state is empty: tab 0's list is not restored. -/
theorem history_roundtrip_cex :
    V1.load_history (some (V1.save_history [(0, ["a".toList])])) [] none
        = some [] ∧
    some ([] : V1.Hist) ≠ some [(0, ["a".toList])] := by
  constructor
  · decide
  · decide

/-- Claim C2 (amended): `save_history` writes all tabs' URLs flattened, with
no tab boundaries, and `load_history` does not restore per-tab lists: with
no current tab (the startup situation, since it runs before the first tab is
created) it leaves the history state unchanged, and with a current tab it
appends every saved URL, across all tabs, to that single tab's list. -/
theorem history_amended (file : Option PyStr) (h0 h : V1.Hist) (t : Nat)
    (us : List PyStr) (hu : ∀ u ∈ V1.allUrls h, '\n' ∉ u ∧ strip u = u) :
    V1.load_history file h0 none = some h0 ∧
    V1.load_history (some (V1.save_history h)) [(t, us)] (some t)
      = some [(t, us ++ V1.allUrls h)] := by
  constructor
  · cases file with
    | none => rfl
    | some c => simp [V1.load_history, loadHistoryLines_none]
  · simp [V1.load_history, V1.save_history,
      fileLines_encodeLines _ (fun u h2 => (hu u h2).1),
      loadHistoryLines_single t _ us (fun u h2 => (hu u h2).2)]

/-- Claim C2 (witness): the amended statement at a concrete two-tab history
loaded into a fresh tab 9. -/
theorem history_amended_witness :
    V1.load_history none [(5, [])] none = some [(5, [])] ∧
    V1.load_history
        (some (V1.save_history [(0, ["a".toList]), (1, ["b".toList])]))
        [(9, ["z".toList])] (some 9)
      = some [(9, ["z".toList] ++ V1.allUrls [(0, ["a".toList]), (1, ["b".toList])])] :=
  history_amended none [(5, [])] [(0, ["a".toList]), (1, ["b".toList])] 9
    ["z".toList] (by decide)

/-- Claim C3: when the bookmarks file (respectively the history file) does
not exist, `load_bookmarks` (respectively `load_history`) returns without
raising and leaves the bookmark and history state unchanged; the existence
check is the only guard, in portoco1.py and portoco1.2.py alike. -/
theorem load_missing_file (bl : List V1.Entry) (h : V1.Hist) (cur : Option Nat)
    (bm : V12.Bookmarks) :
    V1.load_bookmarks none bl = some bl ∧
    V1.load_history none h cur = some h ∧
    V12.load_bookmarks none bm = bm :=
  ⟨rfl, rfl, rfl⟩

theorem lookupFolder_append_self (f : PyStr) (es : List V12.Entry)
    (bm : V12.Bookmarks) (hl : V12.lookupFolder f bm = none) :
    V12.lookupFolder f (bm ++ [(f, es)]) = some es := by
  induction bm with
  | nil => simp [V12.lookupFolder]
  | cons p rest ih =>
    obtain ⟨k, l⟩ := p
    by_cases hk : k = f
    · simp [V12.lookupFolder, hk] at hl
    · simp [V12.lookupFolder, hk] at hl ⊢
      exact ih hl

theorem lookupFolder_append_other (g f : PyStr) (es : List V12.Entry)
    (bm : V12.Bookmarks) (hg : g ≠ f) :
    V12.lookupFolder g (bm ++ [(f, es)]) = V12.lookupFolder g bm := by
  induction bm with
  | nil => simp [V12.lookupFolder, Ne.symm hg]
  | cons p rest ih =>
    obtain ⟨k, l⟩ := p
    by_cases hk : k = g
    · simp [V12.lookupFolder, hk]
    · simp [V12.lookupFolder, hk, ih]

theorem appendToFolder_lookup_self (f : PyStr) (e : V12.Entry)
    (es : List V12.Entry) (bm : V12.Bookmarks)
    (hl : V12.lookupFolder f bm = some es) :
    V12.lookupFolder f (V12.appendToFolder f e bm) = some (es ++ [e]) := by
  induction bm with
  | nil => simp [V12.lookupFolder] at hl
  | cons p rest ih =>
    obtain ⟨k, l⟩ := p
    by_cases hk : k = f
    · simp [V12.lookupFolder, V12.appendToFolder, hk] at hl ⊢
      rw [hl]
    · simp [V12.lookupFolder, V12.appendToFolder, hk] at hl ⊢
      exact ih hl

theorem appendToFolder_lookup_other (g f : PyStr) (e : V12.Entry)
    (bm : V12.Bookmarks) (hg : g ≠ f) :
    V12.lookupFolder g (V12.appendToFolder f e bm) = V12.lookupFolder g bm := by
  induction bm with
  | nil => simp [V12.appendToFolder]
  | cons p rest ih =>
    obtain ⟨k, l⟩ := p
    by_cases hk : k = f
    · have hkg : ¬ k = g := fun h => hg (h.symm.trans hk)
      simp [V12.lookupFolder, V12.appendToFolder, hk, hkg, Ne.symm hg]
    · by_cases hk2 : k = g
      · simp [V12.lookupFolder, V12.appendToFolder, hk, hk2, hg]
      · simp [V12.lookupFolder, V12.appendToFolder, hk, hk2, ih]

theorem appendToFolder_keys (f : PyStr) (e : V12.Entry) (bm : V12.Bookmarks) :
    (V12.appendToFolder f e bm).map Prod.fst = bm.map Prod.fst := by
  induction bm with
  | nil => rfl
  | cons p rest ih =>
    obtain ⟨k, l⟩ := p
    by_cases hk : k = f
    · simp [V12.appendToFolder, hk]
    · simp [V12.appendToFolder, hk, ih]

theorem lookupFolder_none_not_mem (f : PyStr) (bm : V12.Bookmarks)
    (hl : V12.lookupFolder f bm = none) : f ∉ bm.map Prod.fst := by
  induction bm with
  | nil => simp
  | cons p rest ih =>
    obtain ⟨k, l⟩ := p
    by_cases hk : k = f
    · simp [V12.lookupFolder, hk] at hl
    · simp [V12.lookupFolder, hk] at hl
      simp only [List.map_cons, List.mem_cons, not_or]
      exact ⟨fun h => hk h.symm, ih hl⟩

theorem ensureFolder_lookup_self (f : PyStr) (bm : V12.Bookmarks) :
    V12.lookupFolder f (V12.ensureFolder f bm)
      = some ((V12.lookupFolder f bm).getD []) := by
  cases hl : V12.lookupFolder f bm with
  | none => simp [V12.ensureFolder, hl, lookupFolder_append_self f [] bm hl]
  | some es => simp [V12.ensureFolder, hl]

theorem ensureFolder_lookup_other (g f : PyStr) (bm : V12.Bookmarks)
    (hg : g ≠ f) :
    V12.lookupFolder g (V12.ensureFolder f bm) = V12.lookupFolder g bm := by
  cases hl : V12.lookupFolder f bm with
  | none => simp [V12.ensureFolder, hl, lookupFolder_append_other g f [] bm hg]
  | some es => simp [V12.ensureFolder, hl]

theorem ensureFolder_keys_nodup (f : PyStr) (bm : V12.Bookmarks)
    (hkeys : (bm.map Prod.fst).Nodup) :
    ((V12.ensureFolder f bm).map Prod.fst).Nodup := by
  cases hl : V12.lookupFolder f bm with
  | none =>
    have hmem : f ∉ bm.map Prod.fst := lookupFolder_none_not_mem f bm hl
    simp only [V12.ensureFolder, hl, Option.isSome_none, Bool.false_eq_true,
      if_false, List.map_append, List.map_cons, List.map_nil]
    rw [List.nodup_append]
    refine ⟨hkeys, List.nodup_singleton f, ?_⟩
    intro a ha haf
    rw [List.mem_singleton.mp haf] at ha
    exact hmem ha
  | some es => simp [V12.ensureFolder, hl, hkeys]

/-- Claim C4 (counterexample): `add_bookmark` of portoco1.2.py does not
insert the current page's pair on every invocation.  With folder `"F"`
already holding `("u", "old")`, invoking it for current page url `"u"`,
title `"new"` and chosen folder `"F"` leaves the state unchanged, and the
pair `("u", "new")` is not in the folder's entry list afterwards. -/
theorem add_bookmark_cex :
    V12.add_bookmark [("F".toList, [("u".toList, "old".toList)])]
        "u".toList "new".toList true "F".toList
      = [("F".toList, [("u".toList, "old".toList)])] ∧
    ("u".toList, "new".toList) ∉
      ((V12.lookupFolder "F".toList
          (V12.add_bookmark [("F".toList, [("u".toList, "old".toList)])]
            "u".toList "new".toList true "F".toList)).getD []) := by
  constructor
  · decide
  · decide

/-- Claim C4 (amended): unless the current page's url is already in the
chosen folder (in which case `add_bookmark` returns with the state
unchanged), `add_bookmark` of portoco1.2.py appends the `(url, title)` pair
to the entry list of the effective folder (the user's stripped choice, or
`"Bookmarks"` on cancel or blank input), creating that folder's entry when
it is absent, leaving every other folder unchanged, and keeping the folder
keys unique, so every stored entry occurrence lies in exactly one folder's
list. -/
theorem add_bookmark_amended (bm : V12.Bookmarks) (url title : PyStr)
    (ok : Bool) (folderInput : PyStr)
    (hnew : url ∉ ((V12.lookupFolder (V12.effFolder ok folderInput) bm).getD
      []).map Prod.fst)
    (hkeys : (bm.map Prod.fst).Nodup) :
    V12.lookupFolder (V12.effFolder ok folderInput)
        (V12.add_bookmark bm url title ok folderInput)
      = some (((V12.lookupFolder (V12.effFolder ok folderInput) bm).getD [])
          ++ [(url, title)]) ∧
    (∀ g, g ≠ V12.effFolder ok folderInput →
      V12.lookupFolder g (V12.add_bookmark bm url title ok folderInput)
        = V12.lookupFolder g bm) ∧
    ((V12.add_bookmark bm url title ok folderInput).map Prod.fst).Nodup := by
  have hdup : url ∉ ((V12.lookupFolder (V12.effFolder ok folderInput)
      (V12.ensureFolder (V12.effFolder ok folderInput) bm)).getD []).map
        Prod.fst := by
    rw [ensureFolder_lookup_self]
    simpa using hnew
  have hres : V12.add_bookmark bm url title ok folderInput
      = V12.appendToFolder (V12.effFolder ok folderInput) (url, title)
          (V12.ensureFolder (V12.effFolder ok folderInput) bm) := by
    simp only [V12.add_bookmark, if_neg hdup]
  refine ⟨?_, ?_, ?_⟩
  · rw [hres, appendToFolder_lookup_self _ _ _ _ (ensureFolder_lookup_self _ bm)]
  · intro g hg
    rw [hres, appendToFolder_lookup_other g _ _ _ hg,
      ensureFolder_lookup_other g _ bm hg]
  · rw [hres, appendToFolder_keys]
    exact ensureFolder_keys_nodup _ bm hkeys

/-- Claim C4 (witness): the amended statement at a concrete state: adding
url `"u"`, title `"t"` to the new folder `"F"` of an empty bookmark map. -/
theorem add_bookmark_amended_witness :
    V12.lookupFolder (V12.effFolder true "F".toList)
        (V12.add_bookmark [] "u".toList "t".toList true "F".toList)
      = some (((V12.lookupFolder (V12.effFolder true "F".toList)
          ([] : V12.Bookmarks)).getD []) ++ [("u".toList, "t".toList)]) ∧
    V12.lookupFolder "G".toList
        (V12.add_bookmark [] "u".toList "t".toList true "F".toList)
      = V12.lookupFolder "G".toList ([] : V12.Bookmarks) ∧
    ((V12.add_bookmark [] "u".toList "t".toList true "F".toList).map
        Prod.fst).Nodup := by
  have h := add_bookmark_amended [] "u".toList "t".toList true "F".toList
    (by decide) (by decide)
  exact ⟨h.1, h.2.1 "G".toList (by decide), h.2.2⟩

/-- Claim C9: `add_bookmark` is idempotent with respect to the current
page's url: when the url is already in the flat `bookmarks_list` of
portoco1.py, or already in the chosen folder's list in the folder-keyed
portoco1.2.py, the invocation leaves the bookmark state unchanged. -/
theorem add_bookmark_idempotent (bl : List V1.Entry) (url title : PyStr)
    (bm : V12.Bookmarks) (url2 title2 : PyStr) (ok : Bool)
    (folderInput : PyStr)
    (h1 : url ∈ bl.map Prod.fst)
    (h2 : url2 ∈ ((V12.lookupFolder (V12.effFolder ok folderInput) bm).getD
      []).map Prod.fst) :
    V1.add_bookmark bl url title = bl ∧
    V12.add_bookmark bm url2 title2 ok folderInput = bm := by
  constructor
  · simp [V1.add_bookmark, h1]
  · cases hl : V12.lookupFolder (V12.effFolder ok folderInput) bm with
    | none => rw [hl] at h2; simp at h2
    | some es =>
      have hens : V12.ensureFolder (V12.effFolder ok folderInput) bm = bm := by
        simp [V12.ensureFolder, hl]
      simp only [V12.add_bookmark, hens]
      rw [if_pos h2]

/-- Claim C9 (witness): the idempotence at concrete states where the url is
already bookmarked. -/
theorem add_bookmark_idempotent_witness :
    V1.add_bookmark [("u".toList, "t".toList)] "u".toList "x".toList
      = [("u".toList, "t".toList)] ∧
    V12.add_bookmark [("F".toList, [("u".toList, "t".toList)])]
        "u".toList "x".toList true "F".toList
      = [("F".toList, [("u".toList, "t".toList)])] :=
  add_bookmark_idempotent [("u".toList, "t".toList)] "u".toList "x".toList
    [("F".toList, [("u".toList, "t".toList)])] "u".toList "x".toList true
    "F".toList (by decide) (by decide)

/-- Claim C3 (witness): the missing-file behaviour at concrete states. -/
theorem load_missing_file_witness :
    V1.load_bookmarks none [("u".toList, "t".toList)]
      = some [("u".toList, "t".toList)] ∧
    V1.load_history none [(0, ["a".toList])] (some 0)
      = some [(0, ["a".toList])] ∧
    V12.load_bookmarks none [("F".toList, [("u".toList, "t".toList)])]
      = [("F".toList, [("u".toList, "t".toList)])] :=
  load_missing_file [("u".toList, "t".toList)] [(0, ["a".toList])] (some 0)
    [("F".toList, [("u".toList, "t".toList)])]

theorem lookupTab_setTab_self (t : Nat) (us : List PyStr) (h : V1.Hist) :
    V1.lookupTab t (V1.setTab t us h) = some us := by
  induction h with
  | nil => simp [V1.setTab, V1.lookupTab]
  | cons p rest ih =>
    obtain ⟨k, l⟩ := p
    by_cases hk : k = t
    · simp [V1.setTab, V1.lookupTab, hk]
    · simp [V1.setTab, V1.lookupTab, hk, ih]

theorem lookupTab_setTab_other (w t : Nat) (us : List PyStr) (h : V1.Hist)
    (hw : w ≠ t) :
    V1.lookupTab w (V1.setTab t us h) = V1.lookupTab w h := by
  induction h with
  | nil => simp [V1.setTab, V1.lookupTab, Ne.symm hw]
  | cons p rest ih =>
    obtain ⟨k, l⟩ := p
    by_cases hk : k = t
    · have hkw : ¬ k = w := fun h2 => hw (h2.symm.trans hk)
      simp [V1.setTab, V1.lookupTab, hk, hkw, Ne.symm hw]
    · by_cases hk2 : k = w
      · simp [V1.setTab, V1.lookupTab, hk, hk2, hw]
      · simp [V1.setTab, V1.lookupTab, hk, hk2, ih]

theorem lookupTab_not_mem (t : Nat) (h : V1.Hist)
    (hm : t ∉ h.map Prod.fst) : V1.lookupTab t h = none := by
  induction h with
  | nil => rfl
  | cons p rest ih =>
    obtain ⟨k, l⟩ := p
    simp only [List.map_cons, List.mem_cons, not_or] at hm
    have hk : ¬ k = t := fun h2 => hm.1 h2.symm
    simp [V1.lookupTab, hk, ih hm.2]

theorem delTab_lookup_self (t : Nat) (h : V1.Hist)
    (hkeys : (h.map Prod.fst).Nodup) :
    V1.lookupTab t (V1.delTab t h) = none := by
  induction h with
  | nil => rfl
  | cons p rest ih =>
    obtain ⟨k, l⟩ := p
    simp only [List.map_cons, List.nodup_cons] at hkeys
    by_cases hk : k = t
    · simp only [V1.delTab, if_pos hk]
      exact lookupTab_not_mem t rest (hk ▸ hkeys.1)
    · simp [V1.delTab, V1.lookupTab, hk, ih hkeys.2]

theorem delTab_lookup_other (w t : Nat) (h : V1.Hist) (hw : w ≠ t) :
    V1.lookupTab w (V1.delTab t h) = V1.lookupTab w h := by
  induction h with
  | nil => rfl
  | cons p rest ih =>
    obtain ⟨k, l⟩ := p
    by_cases hk : k = t
    · have hkw : ¬ k = w := fun h2 => hw (h2.symm.trans hk)
      simp [V1.delTab, V1.lookupTab, hk, hkw, Ne.symm hw]
    · by_cases hk2 : k = w
      · simp [V1.delTab, V1.lookupTab, hk, hk2, hw]
      · simp [V1.delTab, V1.lookupTab, hk, hk2, ih]

/-- Claim C5: every open tab has its own linear history list in portoco1.py.
`add_tab` gives the fresh tab `v` the list `[url]` and touches no other
tab's list; navigation on tab `t` appends a not-yet-recorded url to `t`'s
list only, leaving every other tab's list unchanged; and `close_tab` (when
more than one tab is open) removes the closed tab's list and no other. -/
theorem per_tab_history (tabs : List Nat) (h : V1.Hist) (v index t : Nat)
    (url : PyStr) :
    V1.lookupTab v (V1.add_tab tabs h v url).2 = some [url] ∧
    (∀ w, w ≠ v → V1.lookupTab w (V1.add_tab tabs h v url).2
      = V1.lookupTab w h) ∧
    (∀ us, V1.lookupTab t h = some us → url ∉ us →
      V1.navUpdate t url h = some (V1.setTab t (us ++ [url]) h) ∧
      V1.lookupTab t (V1.setTab t (us ++ [url]) h) = some (us ++ [url]) ∧
      (∀ w, w ≠ t → V1.lookupTab w (V1.setTab t (us ++ [url]) h)
        = V1.lookupTab w h)) ∧
    (1 < tabs.length → tabs[index]? = some t → (h.map Prod.fst).Nodup →
      (V1.close_tab tabs h index).2 = V1.delTab t h ∧
      V1.lookupTab t (V1.delTab t h) = none ∧
      (∀ w, w ≠ t → V1.lookupTab w (V1.delTab t h) = V1.lookupTab w h)) := by
  refine ⟨?_, ?_, ?_, ?_⟩
  · exact lookupTab_setTab_self v [url] h
  · exact fun w hw => lookupTab_setTab_other w v [url] h hw
  · intro us hus hurl
    refine ⟨?_, lookupTab_setTab_self t (us ++ [url]) h,
      fun w hw => lookupTab_setTab_other w t (us ++ [url]) h hw⟩
    simp [V1.navUpdate, hus, hurl]
  · intro hlen hidx hkeys
    refine ⟨?_, delTab_lookup_self t h hkeys,
      fun w hw => delTab_lookup_other w t h hw⟩
    simp [V1.close_tab, hlen, hidx]

/-- Claim C5 (witness): the per-tab history facts at a concrete two-tab
state. -/
theorem per_tab_history_witness :
    V1.lookupTab 2 (V1.add_tab [0, 1] [(0, ["a".toList]), (1, ["b".toList])]
        2 "c".toList).2 = some ["c".toList] ∧
    V1.lookupTab 0 (V1.add_tab [0, 1] [(0, ["a".toList]), (1, ["b".toList])]
        2 "c".toList).2 = V1.lookupTab 0 [(0, ["a".toList]), (1, ["b".toList])] ∧
    V1.navUpdate 1 "c".toList [(0, ["a".toList]), (1, ["b".toList])]
      = some (V1.setTab 1 (["b".toList] ++ ["c".toList])
          [(0, ["a".toList]), (1, ["b".toList])]) ∧
    (V1.close_tab [0, 1] [(0, ["a".toList]), (1, ["b".toList])] 1).2
      = V1.delTab 1 [(0, ["a".toList]), (1, ["b".toList])] ∧
    V1.lookupTab 1 (V1.delTab 1 [(0, ["a".toList]), (1, ["b".toList])])
      = none := by
  have H := per_tab_history [0, 1] [(0, ["a".toList]), (1, ["b".toList])] 2 1 1
    "c".toList
  have h3 := H.2.2.1 ["b".toList] (by decide) (by decide)
  have h4 := H.2.2.2 (by decide) (by decide) (by decide)
  exact ⟨H.1, H.2.1 0 (by decide), h3.1, h4.1, h4.2.1⟩

/-- Claim C6: each of `save_bookmarks` and `save_history` in portoco1.py
performs exactly one file write, to `bookmarks.txt` respectively
`history.txt`, both distinct paths inside the `portoco_data` directory, and
writes no other file. -/
theorem persistence_two_files (cwd : PyStr) (bl : List V1.Entry) (h : V1.Hist) :
    (save_bookmarks_writes cwd bl).map Prod.fst = [bookmarksFile cwd] ∧
    (save_history_writes cwd h).map Prod.fst = [historyFile cwd] ∧
    bookmarksFile cwd ≠ historyFile cwd ∧
    data_path cwd <+: bookmarksFile cwd ∧
    data_path cwd <+: historyFile cwd := by
  refine ⟨rfl, rfl, ?_, List.prefix_append _ _, List.prefix_append _ _⟩
  intro heq
  have h2 : '/' :: "bookmarks.txt".toList = '/' :: "history.txt".toList :=
    List.append_cancel_left heq
  exact absurd h2 (by decide)

/-- Claim C6 (witness): the write lists at a concrete working directory and
state. -/
theorem persistence_two_files_witness :
    (save_bookmarks_writes "/home".toList [("u".toList, "t".toList)]).map
        Prod.fst = [bookmarksFile "/home".toList] ∧
    (save_history_writes "/home".toList [(0, ["a".toList])]).map Prod.fst
      = [historyFile "/home".toList] ∧
    bookmarksFile "/home".toList ≠ historyFile "/home".toList :=
  have H := persistence_two_files "/home".toList [("u".toList, "t".toList)]
    [(0, ["a".toList])]
  ⟨H.1, H.2.1, H.2.2.1⟩

/-- Claim C7: `apply_styles` of portoco1.3.py installs the dark stylesheet
exactly when the system palette's window-background lightness is below 128,
and the light stylesheet otherwise. -/
theorem dark_mode_styles (lightness : Nat) :
    (V13.appliedStyles lightness = V13.Styles.dark ↔ lightness < 128) ∧
    (V13.appliedStyles lightness = V13.Styles.light ↔ 128 ≤ lightness) := by
  by_cases hl : lightness < 128
  all_goals simp [V13.appliedStyles, V13.apply_styles, V13.is_system_dark_mode, hl]
  all_goals omega

/-- Claim C7 (witness): the installed stylesheet at lightness 100 (dark)
and 200 (light). -/
theorem dark_mode_styles_witness :
    V13.appliedStyles 100 = V13.Styles.dark ∧
    V13.appliedStyles 200 = V13.Styles.light :=
  ⟨(dark_mode_styles 100).1.mpr (by decide),
   (dark_mode_styles 200).2.mpr (by decide)⟩

/-- Claim C8: once a tab is open, the tab count never drops below one:
`close_tab` of portoco1.3.py removes a tab only when more than one is open,
and otherwise leaves the tab container unchanged. -/
theorem close_tab_min_one (tabs : List Nat) (index : Nat)
    (h1 : 1 ≤ tabs.length) :
    1 ≤ (V13.close_tab tabs index).length ∧
    (tabs.length = 1 → V13.close_tab tabs index = tabs) ∧
    (1 < tabs.length → index < tabs.length →
      V13.close_tab tabs index = tabs.eraseIdx index ∧
      (V13.close_tab tabs index).length = tabs.length - 1) := by
  by_cases hlt : 1 < tabs.length
  · refine ⟨?_, fun h2 => absurd hlt (by omega), fun _ hi =>
      ⟨by simp [V13.close_tab, hlt], ?_⟩⟩
    · simp only [V13.close_tab, if_pos hlt, List.length_eraseIdx]
      split <;> omega
    · simp only [V13.close_tab, if_pos hlt, List.length_eraseIdx, if_pos hi]
  · have hresult : V13.close_tab tabs index = tabs := by
      simp [V13.close_tab, hlt]
    exact ⟨by rw [hresult]; exact h1, fun _ => hresult, fun h2 => absurd h2 hlt⟩

/-- Claim C8 (witness): closing tab 0 of a two-tab container. -/
theorem close_tab_min_one_witness :
    1 ≤ (V13.close_tab [0, 1] 0).length ∧
    V13.close_tab [0, 1] 0 = List.eraseIdx [0, 1] 0 ∧
    (V13.close_tab [0, 1] 0).length = 2 - 1 := by
  have H := close_tab_min_one [0, 1] 0 (by decide)
  have h3 := H.2.2 (by decide) (by decide)
  exact ⟨H.1, h3.1, h3.2⟩

/-- Claim C10: submitting an empty or whitespace-only string from the URL
bar is a no-op: `load_url` of portoco1.py returns immediately, loading no
url and leaving the history (and the rest of the state) unchanged. -/
theorem blank_input_noop (input : PyStr) (cur : Option Nat) (h : V1.Hist)
    (hblank : strip input = []) :
    V1.load_url input cur h = some (h, none) := by
  simp [V1.load_url, hblank]

/-- Claim C10 (witness): a whitespace-only URL-bar submission on a concrete
state. -/
theorem blank_input_noop_witness :
    V1.load_url "   ".toList (some 0) [(0, ["a".toList])]
      = some ([(0, ["a".toList])], none) :=
  blank_input_noop "   ".toList (some 0) [(0, ["a".toList])] (by decide)

end Portoco
